import Mathlib

/-!
Shallow embedding of the data-extraction and normalization pipeline of the
"webhooks-for-tella" browser extension (src/content.js, src/sidebar-webhook.js),
together with proofs about the claims of its specification.

JavaScript values flowing through the pipeline are JSON values (the payloads
come from `response.json()`), plus `undefined` as the result of a missing
property access.  They are modelled by the mutual inductive family
`JVal`/`JArr`/`JObj` below.  Numbers are modelled as rationals (JSON numbers in
these payloads are finite decimals; `NaN` and `Infinity` cannot occur in JSON).
Property access on `null`/`undefined` throws a `TypeError` in JavaScript; this
is modelled with `Except Unit`.
-/

namespace Tella

mutual

inductive JVal where
  | jnull : JVal
  | undefV : JVal
  | bool (b : Bool) : JVal
  | num (q : ℚ) : JVal
  | str (s : String) : JVal
  | arr (xs : JArr) : JVal
  | obj (fs : JObj) : JVal
deriving DecidableEq

inductive JArr where
  | nil : JArr
  | cons (v : JVal) (rest : JArr) : JArr
deriving DecidableEq

inductive JObj where
  | nil : JObj
  | cons (k : String) (v : JVal) (rest : JObj) : JObj
deriving DecidableEq

end

instance {ε α : Type} [DecidableEq ε] [DecidableEq α] : DecidableEq (Except ε α) :=
  fun a b =>
    match a, b with
    | .ok x, .ok y =>
        if h : x = y then .isTrue (by rw [h]) else .isFalse (by simp [h])
    | .error x, .error y =>
        if h : x = y then .isTrue (by rw [h]) else .isFalse (by simp [h])
    | .ok _, .error _ => .isFalse (by simp)
    | .error _, .ok _ => .isFalse (by simp)

/-- First-match field lookup; a missing property reads as `undefined`. -/
def JObj.get : JObj → String → JVal
  | .nil, _ => .undefV
  | .cons k v rest, key => if k = key then v else rest.get key

def JArr.length : JArr → Nat
  | .nil => 0
  | .cons _ rest => 1 + rest.length

/-- JS array indexing `xs[i]`; out of bounds reads as `undefined`. -/
def JArr.getIdx : JArr → Nat → JVal
  | .nil, _ => .undefV
  | .cons v _, 0 => v
  | .cons _ rest, n + 1 => rest.getIdx n

/-- JS truthiness.  (`NaN` does not occur in JSON payloads, so a number is
falsy exactly when it is `0`; a string is falsy exactly when it is empty.) -/
def JVal.truthy : JVal → Bool
  | .jnull => false
  | .undefV => false
  | .bool b => b
  | .num q => q ≠ 0
  | .str s => s ≠ ""
  | .arr _ => true
  | .obj _ => true

/-- JS `a || b`. -/
def jor (a b : JVal) : JVal := if a.truthy then a else b

def JVal.isArr : JVal → Bool
  | .arr _ => true
  | _ => false

/-- JS property access `v.k`: throws a `TypeError` on `null`/`undefined`,
reads `undefined` on primitives and arrays (none of the accessed property
names exists on those), and looks the field up on objects. -/
def JVal.getF : JVal → String → Except Unit JVal
  | .jnull, _ => .error ()
  | .undefV, _ => .error ()
  | .obj fs, k => .ok (fs.get k)
  | _, _ => .ok .undefV

/-- Append two field lists (building a result object incrementally). -/
def JObj.append : JObj → JObj → JObj
  | .nil, o => o
  | .cons k v rest, o => .cons k v (rest.append o)

/-- JS `{...o, k: v}`: overwrite `k` in place if present, else append it. -/
def JObj.set : JObj → String → JVal → JObj
  | .nil, k, v => .cons k v .nil
  | .cons k1 v1 rest, k, v =>
      if k1 = k then .cons k1 v rest else .cons k1 v1 (rest.set k v)

/--
`cleanObject` (src/content.js lines 165-179): walk the fields of an object;
delete keys whose value is `null`/`undefined`; recurse into nested non-array
objects and delete the key if the nested object became empty.  Arrays and all
other values (including `0`, `""` and `false`) are kept untouched.
-/
def cleanObject : JObj → JObj
  | .nil => .nil
  | .cons _ (.jnull) rest => cleanObject rest
  | .cons _ (.undefV) rest => cleanObject rest
  | .cons k (.obj fs) rest =>
      match cleanObject fs with
      | .nil => cleanObject rest
      | .cons k1 v1 fs2 => .cons k (.obj (.cons k1 v1 fs2)) (cleanObject rest)
  | .cons k v rest => .cons k v (cleanObject rest)

/-! ### Number rendering and arithmetic helpers (JS built-ins) -/

def jsIntToString (n : ℤ) : String :=
  if n < 0 then "-" ++ Nat.repr n.natAbs else Nat.repr n.natAbs

/-- JS `Number.prototype.toString`, exact for integral values.  The code under
verification only renders integral numbers in the properties proved below;
non-integral values get a definite but approximate rational rendering. -/
def jsNumToString (q : ℚ) : String :=
  if q.den = 1 then jsIntToString q.num
  else jsIntToString q.num ++ "/" ++ Nat.repr q.den

/-- JS `String.prototype.padStart(n, "0")`. -/
def padStart (s : String) (n : Nat) : String :=
  if n ≤ s.length then s else String.mk (List.replicate (n - s.length) '0') ++ s

/-- JS `String.prototype.trim`: strip leading and trailing whitespace. -/
def jsTrim (s : String) : String :=
  String.mk (((s.data.dropWhile Char.isWhitespace).reverse.dropWhile
    Char.isWhitespace).reverse)

/-- Division of a rational by a natural number, implemented on `num`/`den` so
that it evaluates definitionally (the ambient `ℚ` field operations are
`@[irreducible]` in this toolchain); `ratDivNat_eq` identifies it with `/`. -/
def ratDivNat (a : ℚ) (n : ℕ) : ℚ := mkRat a.num (a.den * n)

theorem ratDivNat_eq (a : ℚ) (n : ℕ) : ratDivNat a n = a / n := by
  rw [ratDivNat, Rat.mkRat_eq_div]
  push_cast
  rw [div_mul_eq_div_div]
  congr 1
  exact Rat.num_div_den a

/-- Subtraction of an integer from a rational, again on `num`/`den`;
`ratSubInt_eq` identifies it with `-`. -/
def ratSubInt (a : ℚ) (k : ℤ) : ℚ := mkRat (a.num - k * a.den) a.den

theorem ratSubInt_eq (a : ℚ) (k : ℤ) : ratSubInt a k = a - k := by
  rw [ratSubInt, Rat.mkRat_eq_div]
  push_cast
  rw [sub_div]
  congr 1
  · exact Rat.num_div_den a
  · rw [mul_div_assoc, div_self (by exact_mod_cast a.den_nz), mul_one]

/-- Truncation toward zero, the rounding JS `%` uses. -/
def ratTrunc (q : ℚ) : ℤ := q.num.tdiv q.den

/-- JS remainder `a % n`, that is `a - n * trunc(a / n)` (all divisors used in
this development are positive naturals). -/
def jsMod (a : ℚ) (n : ℕ) : ℚ := ratSubInt a ((n : ℤ) * ratTrunc (ratDivNat a n))

def digitsVal (l : List Char) : ℕ := l.foldl (fun a c => 10 * a + (c.toNat - 48)) 0

def parseExpSuffix (t : List Char) : ℤ :=
  let st : ℤ × List Char :=
    match t with
    | '-' :: u => (-1, u)
    | '+' :: u => (1, u)
    | u => (1, u)
  let ds := st.2.takeWhile Char.isDigit
  if ds = [] then 0 else st.1 * (digitsVal ds : ℤ)

/-- JS `parseFloat`: parse the longest numeric-literal prefix after optional
whitespace and sign; `none` models `NaN`.  The parsed value
`sign * (int + frac / 10^fracLen) * 10^exp` is assembled as a single
`mkRat`.  (`Infinity` literals are not modelled; no value in this development
exercises them.) -/
def jsParseFloat (s : String) : Option ℚ :=
  let l := s.data.dropWhile Char.isWhitespace
  let sl : ℤ × List Char :=
    match l with
    | '-' :: t => (-1, t)
    | '+' :: t => (1, t)
    | t => (1, t)
  let intPart := sl.2.takeWhile Char.isDigit
  let r1 := sl.2.dropWhile Char.isDigit
  let fr : List Char × List Char :=
    match r1 with
    | '.' :: t => (t.takeWhile Char.isDigit, t.dropWhile Char.isDigit)
    | t => ([], t)
  if intPart = [] ∧ fr.1 = [] then none
  else
    let p10f : ℕ := 10 ^ fr.1.length
    let mantNum : ℤ := (digitsVal intPart : ℤ) * (p10f : ℤ) + (digitsVal fr.1 : ℤ)
    let expo : ℤ :=
      match fr.2 with
      | 'e' :: t => parseExpSuffix t
      | 'E' :: t => parseExpSuffix t
      | _ => 0
    if 0 ≤ expo then some (mkRat (sl.1 * mantNum * 10 ^ expo.toNat) p10f)
    else some (mkRat (sl.1 * mantNum) (p10f * 10 ^ (-expo).toNat))

/-! ### Duration normalization (`TellaDataExtractor.formatDuration`) -/

/-- The numeric normalization step of `formatDuration`: `!value || value <= 0`
yields `null`; values above the `10000` threshold are treated as milliseconds
and floor-divided by `1000`; others are floored as seconds. -/
def normalizeDurationValue (v : ℚ) : Option ℤ :=
  if v ≤ 0 then none
  else if 10000 < v then some (Rat.floor (ratDivNat v 1000))
  else some (Rat.floor v)

mutual

/-- `TellaDataExtractor.formatDuration` (src/content.js lines 337-375).
Numbers are normalized directly; strings go through `parseFloat` (a string
whose parse is `NaN` falls through to the `input && input.duration` branch,
where its `duration` property is `undefined`, hence `null` results); a truthy
value with a truthy `duration` property recurses on that property; everything
else leaves `value` as `null`, so `null` is returned.  The surrounding
`try`/`catch` never fires (no reachable access throws). -/
def formatDuration : JVal → Option ℤ
  | .num v => normalizeDurationValue v
  | .str s =>
      match jsParseFloat s with
      | some v => normalizeDurationValue v
      | none => none
  | .obj fs => formatDurationField fs
  | _ => none

/-- Lookup of the `duration` property for `formatDuration`'s recursive branch:
first match wins; a missing or falsy property means `null` is returned. -/
def formatDurationField : JObj → Option ℤ
  | .nil => none
  | .cons k v rest =>
      if k = "duration" then (if v.truthy then formatDuration v else none)
      else formatDurationField rest

end

/-! ### Timestamp formatting -/

/-- `TellaDataExtractor.formatTimestamp` (src/content.js lines 377-385):
`M:SS` with no leading zero on the minutes. -/
def formatTimestamp : JVal → String
  | .num s =>
      jsIntToString (Rat.floor (ratDivNat s 60)) ++ ":"
        ++ padStart (jsNumToString (jsMod s 60)) 2
  | _ => "0:00"

/-- `TellaSidebarWebhook.formatTimestampWithLeadingZeros`
(src/sidebar-webhook.js lines 1012-1022): `HH:MM:SS` or `MM:SS`, all fields
zero-padded to two digits. -/
def formatTimestampWithLeadingZeros : JVal → String
  | .num s =>
      let hours := Rat.floor (ratDivNat s 3600)
      let minutes := Rat.floor (ratDivNat (jsMod s 3600) 60)
      let rem := Rat.floor (jsMod s 60)
      if 0 < hours then
        padStart (jsIntToString hours) 2 ++ ":" ++ padStart (jsIntToString minutes) 2
          ++ ":" ++ padStart (jsIntToString rem) 2
      else
        padStart (jsIntToString minutes) 2 ++ ":" ++ padStart (jsIntToString rem) 2
  | _ => "00:00"

/-! ### JS template-literal stringification `${v}` -/

/-- Rendering of a non-array value as a JS array element (`Array.prototype.join`):
`null`/`undefined` render as empty, objects as `[object Object]`.  (The array
case is handled by `jsArrToString`, which flattens recursively.) -/
def jsScalarToString : JVal → String
  | .jnull => ""
  | .undefV => ""
  | .bool b => if b then "true" else "false"
  | .num q => jsNumToString q
  | .str s => s
  | .arr _ => ""
  | .obj _ => "[object Object]"

/-- `Array.prototype.toString` = `join(",")`, with `null`/`undefined`
elements rendered as empty and nested arrays flattened recursively. -/
def jsArrToString : JArr → String
  | .nil => ""
  | .cons (.arr ys) .nil => jsArrToString ys
  | .cons v .nil => jsScalarToString v
  | .cons (.arr ys) rest => jsArrToString ys ++ "," ++ jsArrToString rest
  | .cons v rest => jsScalarToString v ++ "," ++ jsArrToString rest

/-- JS template-literal interpolation of a value, `${v}`. -/
def jsTemplToString : JVal → String
  | .jnull => "null"
  | .undefV => "undefined"
  | .bool b => if b then "true" else "false"
  | .num q => jsNumToString q
  | .str s => s
  | .arr xs => jsArrToString xs
  | .obj _ => "[object Object]"

/-! ### Transcript assembly (`TellaDataExtractor`, src/content.js lines 187-304) -/

/--
The word pipeline of `formatTranscriptFromWords`:
`filter(w => !w.hidden && w.text)` then `map(w => w.text.trim())` then
`filter(t => t.length > 0)`, fused per word.  The fusion preserves the
`Except` result: a `null`/`undefined` element makes the `filter` phase throw
in both versions, and a kept word whose `text` is truthy but not a string
makes the `map` phase's `.trim()` call throw in both versions.
-/
def wordTextsTrimmed : JArr → Except Unit (List String)
  | .nil => .ok []
  | .cons w rest => do
      let hidden ← w.getF "hidden"
      let t ← w.getF "text"
      if !hidden.truthy && t.truthy then
        match t with
        | .str s => do
            let r ← wordTextsTrimmed rest
            if 0 < (jsTrim s).length then return (jsTrim s :: r) else return r
        | _ => .error ()
      else
        wordTextsTrimmed rest

/-- `TellaDataExtractor.formatTranscriptFromWords` on a resolved words array
(the `!words || !Array.isArray(words)` guard is vacuous there): visible,
nonempty, trimmed word texts joined with single spaces. -/
def formatTranscriptFromWords (ws : JArr) : Except Unit String := do
  let texts ← wordTextsTrimmed ws
  return String.intercalate " " texts

/-- `TellaDataExtractor.calculateTranscriptDuration`: the last word's `end_`
time (`|| 0`), or `0` for an empty array. -/
def calculateTranscriptDuration (ws : JArr) : Except Unit JVal :=
  if ws.length = 0 then .ok (.num 0)
  else do
    let e ← (ws.getIdx (ws.length - 1)).getF "end_"
    .ok (jor e (.num 0))

/-- The word-location resolution inside `parseTranscriptionData`
(src/content.js lines 208-220): try the top-level `words` field; if that is
not a (truthy) array, try `transcriptions[1][0].words` under the guards
`Array.isArray(transcriptions) && transcriptions.length > 1` and
`Array.isArray(details) && details.length > 0`; otherwise `words` stays
`null`.  The access `details[0].words` throws when `details[0]` is
`null`/`undefined`. -/
def resolveWords (td : JVal) : Except Unit JVal := do
  let w ← td.getF "words"
  if w.truthy && w.isArr then
    return w
  else
    let ts ← td.getF "transcriptions"
    match ts with
    | .arr xs =>
        if 1 < xs.length then
          match xs.getIdx 1 with
          | .arr ds =>
              if 0 < ds.length then (ds.getIdx 0).getF "words" else return .jnull
          | _ => return .jnull
        else return .jnull
    | _ => return .jnull

/-- The metadata fields `parseTranscriptionData` records before the word
resolution: `transcriptionMetadata` whenever `transcriptions` is truthy, plus
status and details when it is an array of length `> 1`. -/
def transcriptionMetaFields (ts : JVal) : JObj :=
  if ts.truthy then
    match ts with
    | .arr xs =>
        if 1 < xs.length then
          .cons "transcriptionMetadata" ts
            (.cons "transcriptionStatus" (jor (xs.getIdx 0) (.str "Unknown"))
              (.cons "transcriptionDetails" (jor (xs.getIdx 1) (.arr .nil)) .nil))
        else .cons "transcriptionMetadata" ts .nil
    | _ => .cons "transcriptionMetadata" ts .nil
  else .nil

/-- `TellaDataExtractor.parseTranscriptionData` (src/content.js lines
187-233).  A falsy payload yields `{}`.  Otherwise the metadata fields are
recorded, the words array is resolved, and if it resolved to an array (the
source's `words && Array.isArray(words)`; an array is always truthy) the four
transcript fields are appended in source order. -/
def parseTranscriptionData (td : JVal) : Except Unit JObj := do
  if !td.truthy then
    return .nil
  else
    let ts ← td.getF "transcriptions"
    let meta := transcriptionMetaFields ts
    let words ← resolveWords td
    match words with
    | .arr ws => do
        let transcript ← formatTranscriptFromWords ws
        let dur ← calculateTranscriptDuration ws
        return meta.append
          (.cons "transcriptionWords" words
            (.cons "transcript" (.str transcript)
              (.cons "transcriptWordCount" (.num (ws.length : ℚ))
                (.cons "transcriptDurationMs" dur .nil))))
    | _ => return meta

/-! ### Chapter normalization (`TellaDataExtractor.parseChapters`) -/

/-- One mapped chapter entry (src/content.js lines 325-334); accessing the
properties of a `null`/`undefined` element throws. -/
def parseChapterEntry (c : JVal) : Except Unit JVal := do
  let id ← c.getF "id"
  let ts ← c.getF "timestamp"
  let title ← c.getF "title"
  let desc ← c.getF "description"
  return .obj
    (.cons "id" (jor id .jnull)
      (.cons "timestamp" (jor ts (.num 0))
        (.cons "timestampFormatted" (.str (formatTimestamp (jor ts (.num 0))))
          (.cons "title" (jor title (.str ""))
            (.cons "description" (jor desc (.str "")) .nil)))))

def parseChaptersArr : JArr → Except Unit JArr
  | .nil => .ok .nil
  | .cons c rest => do
      let c2 ← parseChapterEntry c
      let r2 ← parseChaptersArr rest
      return .cons c2 r2

/-- `TellaDataExtractor.parseChapters` (src/content.js lines 306-335): a
falsy, non-array or empty chapters value maps to `[]`; an array maps
element-wise through `parseChapterEntry`. -/
def parseChapters (chapters : JVal) : Except Unit JVal :=
  if !chapters.truthy then .ok (.arr .nil)
  else
    match chapters with
    | .arr xs => do
        let ys ← parseChaptersArr xs
        return .arr ys
    | _ => .ok (.arr .nil)

/-! ### Document parsing (`TellaDataExtractor.parseDocumentData`) -/

/--
The `extractedData` object literal of `parseDocumentData` (src/content.js
lines 102-162) before the final `cleanObject` pass.  `storyId` is the
extractor's `this.storyId` (a string or `null`), `pageUrl` is
`window.location.href`, `nowIso` is `new Date().toISOString()` and
`extVersion` is the resolved `chrome.runtime` manifest version string.
`parseTranscriptionData` runs first (line 108), matching the source's
evaluation order of the two fallible steps.
-/
def buildExtractedData (storyId data transcriptionData : JVal)
    (pageUrl nowIso extVersion : String) : Except Unit JObj := do
  let transcriptionInfo ← parseTranscriptionData transcriptionData
  let dstory ← data.getF "story"
  let story := jor dstory data
  let id ← story.getF "id"
  let name ← story.getF "name"
  let desc ← story.getF "description"
  let url ← story.getF "url"
  let dims ← story.getF "dimensions"
  let views ← story.getF "views"
  let slug ← story.getF "slug"
  let channelIDs ← story.getF "channelIDs"
  let dur ← story.getF "duration"
  let createdAt ← story.getF "createdAt"
  let updatedAt ← story.getF "updatedAt"
  let lastSeen ← story.getF "lastSeen"
  let rawChapters ← story.getF "chapters"
  let chapters ← parseChapters rawChapters
  return .cons "video" (.obj
      (.cons "id" (jor id storyId)
        (.cons "title" (jor name .jnull)
          (.cons "description" (jor desc (.str ""))
            (.cons "url" (jor url (.str pageUrl))
              (.cons "dimensions" (jor dims .jnull)
                (.cons "views" (jor views (.num 0))
                  (.cons "slug" (jor slug .jnull)
                    (.cons "channelIDs" (jor channelIDs .jnull) .nil)))))))))
    (.cons "timing" (.obj
      (.cons "duration"
          (match formatDuration dur with
            | some n => .num (n : ℚ)
            | none => .jnull)
        (.cons "durationMs" (jor dur .jnull)
          (.cons "createdAt" (jor createdAt .jnull)
            (.cons "updatedAt" (jor updatedAt .jnull)
              (.cons "lastSeen" (jor lastSeen .jnull) .nil))))))
    (.cons "content" (.obj
      (.cons "chapters" chapters
        (.cons "transcription" (.obj transcriptionInfo) .nil)))
    (.cons "metadata" (.obj
      (.cons "extractedAt" (.str nowIso)
        (.cons "pageUrl" (.str pageUrl)
          (.cons "extractionMethod" (.str "api")
            (.cons "extensionVersion" (.str extVersion) .nil)))))
    .nil)))

/-- `TellaDataExtractor.parseDocumentData`: build `extractedData`, then apply
the recursive `cleanObject` prune and return the result. -/
def parseDocumentData (storyId data transcriptionData : JVal)
    (pageUrl nowIso extVersion : String) : Except Unit JObj :=
  (buildExtractedData storyId data transcriptionData pageUrl nowIso extVersion).map cleanObject

/-! ### Structured-source fetching (`TellaDataExtractor.extractFromAPI`) -/

/-- Outcome of one HTTP fetch, as `fetchDocumentData` /
`fetchTranscriptionData` distinguish them: a 2xx response with parsed JSON
body, a non-2xx response, a network error, or a 2xx response whose body fails
to parse (`response.json()` throws, caught by the same `catch`). -/
inductive FetchOutcome where
  | success (body : JVal) : FetchOutcome
  | httpError (status : Nat) : FetchOutcome
  | networkError : FetchOutcome
  | malformedJSON : FetchOutcome
deriving DecidableEq

/-- `TellaDataExtractor.fetchDocumentData` (src/content.js lines 60-79):
returns the parsed body on a 2xx response and `null` on every failure. -/
def fetchDocumentData : FetchOutcome → Option JVal
  | .success body => some body
  | _ => none

/-- `TellaDataExtractor.fetchTranscriptionData` (src/content.js lines
81-100): same shape as `fetchDocumentData`. -/
def fetchTranscriptionData : FetchOutcome → Option JVal
  | .success body => some body
  | _ => none

/-- `TellaDataExtractor.extractFromAPI` (src/content.js lines 32-58): without
a story id, `null`; if the document fetch fails or yields a falsy body, the
`if (documentData)` guard skips parsing and `null` is returned; otherwise the
transcription fetch's result (or `null` when it failed) is handed to
`parseDocumentData`, whose thrown errors the `try`/`catch` converts to
`null`. -/
def extractFromAPI (storyId : Option String)
    (docOutcome transcriptionOutcome : FetchOutcome)
    (pageUrl nowIso extVersion : String) : Option JObj :=
  match storyId with
  | none => none
  | some sid =>
    match fetchDocumentData docOutcome with
    | none => none
    | some d =>
      if d.truthy then
        let td := (fetchTranscriptionData transcriptionOutcome).getD JVal.jnull
        match parseDocumentData (.str sid) d td pageUrl nowIso extVersion with
        | .ok r => some r
        | .error _ => none
      else none

/-! ### Markdown chapters (`TellaSidebarWebhook`, src/sidebar-webhook.js) -/

/-- One line of `formatChaptersAsMarkdown` (src/sidebar-webhook.js lines
1034-1055): prefer a truthy `timestampFormatted`, else format a present
`timestamp` with leading zeros, else `"00:00"`; the title defaults to
`"Untitled"`; the ` - description` suffix appears only for a truthy
description. -/
def chapterMdLine (c : JVal) : Except Unit String := do
  let tsF ← c.getF "timestampFormatted"
  let tsRaw ← c.getF "timestamp"
  let timestamp : String :=
    if tsF.truthy then jsTemplToString tsF
    else if tsRaw = JVal.undefV then "00:00"
    else formatTimestampWithLeadingZeros tsRaw
  let titleV ← c.getF "title"
  let descV ← c.getF "description"
  let title := jor titleV (.str "Untitled")
  let desc := jor descV (.str "")
  if desc.truthy then
    return "- " ++ timestamp ++ " " ++ jsTemplToString title ++ " - " ++ jsTemplToString desc
  else
    return "- " ++ timestamp ++ " " ++ jsTemplToString title

def chapterLines : JArr → Except Unit (List String)
  | .nil => .ok []
  | .cons c rest => do
      let l ← chapterMdLine c
      let ls ← chapterLines rest
      return l :: ls

/-- `TellaSidebarWebhook.formatChaptersAsMarkdown` (src/sidebar-webhook.js
lines 1028-1058): the empty string for a falsy, non-array or empty chapters
value, else the per-chapter lines joined with newlines. -/
def formatChaptersAsMarkdown (chapters : JVal) : Except Unit String :=
  if !chapters.truthy then .ok ""
  else
    match chapters with
    | .arr .nil => .ok ""
    | .arr xs => do
        let ls ← chapterLines xs
        return String.intercalate "\n" ls
    | _ => .ok ""

def spreadIndexed : Nat → JArr → JObj
  | _, .nil => .nil
  | i, .cons v rest => .cons (Nat.repr i) v (spreadIndexed (i + 1) rest)

def strIndexedFields : Nat → List Char → JObj
  | _, [] => .nil
  | i, c :: cs => .cons (Nat.repr i) (.str (String.mk [c])) (strIndexedFields (i + 1) cs)

/-- JS object spread `{...v}`: objects contribute their fields; arrays and
strings contribute index keys; `null`, `undefined` and other primitives
contribute nothing. -/
def spreadFields : JVal → JObj
  | .obj fs => fs
  | .arr xs => spreadIndexed 0 xs
  | .str s => strIndexedFields 0 s.data
  | _ => .nil

/-- JS optional chaining `v?.k` (never throws). -/
def optChain : JVal → String → JVal
  | .jnull, _ => .undefV
  | .undefV, _ => .undefV
  | .obj fs, k => fs.get k
  | _, _ => .undefV

/-- `TellaSidebarWebhook._buildEnhancedPayload` (src/sidebar-webhook.js lines
1064-1076): `{...extractedData, content: {...contentData, chaptersMd}}` with
`contentData = extractedData?.content || {}` and
`chaptersMd = formatChaptersAsMarkdown(contentData.chapters || [])`. -/
def buildEnhancedPayload (extractedData : JVal) : Except Unit JVal := do
  let contentData := jor (optChain extractedData "content") (.obj .nil)
  let chaptersV ← contentData.getF "chapters"
  let chapters := jor chaptersV (.arr .nil)
  let chaptersMd ← formatChaptersAsMarkdown chapters
  return .obj
    ((spreadFields extractedData).set "content"
      (.obj ((spreadFields contentData).set "chaptersMd" (.str chaptersMd))))

/-! ### Identifier resolution (`TellaDataExtractor.extractStoryId`) -/

def isAlnum (c : Char) : Bool := c.isAlpha || c.isDigit

/-- Try one of the source's URL patterns at the head of `s`: the literal
prefix `pre`, then a nonempty maximal `[a-zA-Z0-9]+` capture, then the
literal `sfx`.  Since each `sfx` used below is empty or starts with `'/'`
(not alphanumeric), greedy matching with backtracking coincides with maximal
munch, so this is the JS regex's behaviour at one start position. -/
def matchPatAt (pre sfx s : List Char) : Option (List Char) :=
  if pre.isPrefixOf s then
    let rest := s.drop pre.length
    let grp := rest.takeWhile isAlnum
    if grp ≠ [] ∧ sfx.isPrefixOf (rest.drop grp.length) then some grp else none
  else none

/-- `String.prototype.match`: scan start positions left to right, returning
the first position's capture (no match is possible in the empty string since
`pre` is nonempty for every pattern below). -/
def searchPat (pre sfx : List Char) : List Char → Option (List Char)
  | [] => none
  | c :: cs =>
      match matchPatAt pre sfx (c :: cs) with
      | some g => some g
      | none => searchPat pre sfx cs

def jsMatchPattern (pre sfx url : String) : Option String :=
  (searchPat pre.data sfx.data url.data).map String.mk

/-- The ordered pattern list of `extractStoryId` (src/content.js lines
13-18), each as (literal prefix, literal suffix) around the
`([a-zA-Z0-9]+)` capture group. -/
def storyIdPatterns : List (String × String) :=
  [("/video/", "/view"), ("/video/", ""), ("/stories/", ""), ("/watch/", "")]

def firstPatternMatch : List (String × String) → String → Option String
  | [], _ => none
  | p :: ps, url =>
      match jsMatchPattern p.1 p.2 url with
      | some g => some g
      | none => firstPatternMatch ps url

/-- `TellaDataExtractor.extractStoryId` (src/content.js lines 10-30): the
first pattern's capture group, else `null`. -/
def extractStoryId (url : String) : Option String :=
  firstPatternMatch storyIdPatterns url

/-! ### Lemmas about the URL pattern scanner -/

theorem isPrefixOf_self_append (l t : List Char) : l.isPrefixOf (l ++ t) = true := by
  induction l with
  | nil => simp [List.isPrefixOf]
  | cons c cs ih => simp [List.isPrefixOf, ih]

theorem isPrefixOf_self (l : List Char) : l.isPrefixOf l = true := by
  simp

theorem isPrefixOf_cons_ne (a b : Char) (as bs : List Char) (h : a ≠ b) :
    (a :: as).isPrefixOf (b :: bs) = false := by
  simp [List.isPrefixOf, h]

theorem isPrefixOf_cons_same (a : Char) (as bs : List Char) :
    (a :: as).isPrefixOf (a :: bs) = as.isPrefixOf bs := by
  simp [List.isPrefixOf]

/-- A pattern containing a non-alphanumeric character is never a prefix of an
all-alphanumeric list. -/
theorem isPrefixOf_false_of_nonalnum (p : List Char) :
    ∀ l : List Char, (∃ c ∈ p, isAlnum c = false) → (∀ c ∈ l, isAlnum c = true) →
      p.isPrefixOf l = false := by
  induction p with
  | nil => intro l hp _; simp at hp
  | cons c cs ih =>
      intro l hp hl
      cases l with
      | nil => rfl
      | cons a as =>
          by_cases hca : c = a
          · subst hca
            have hc : isAlnum c = true := hl c (by simp)
            have hp2 : ∃ x ∈ cs, isAlnum x = false := by
              rcases hp with ⟨x, hx, hxf⟩
              rcases List.mem_cons.mp hx with hx1 | hx2
              · subst hx1; rw [hc] at hxf; cases hxf
              · exact ⟨x, hx2, hxf⟩
            simp [List.isPrefixOf, ih as hp2 (fun y hy => hl y (by simp [hy]))]
          · simp [isPrefixOf_cons_ne c a cs as hca]

theorem takeWhile_all_append (p : Char → Bool) (l r : List Char)
    (hl : ∀ c ∈ l, p c = true) : (l ++ r).takeWhile p = l ++ r.takeWhile p := by
  induction l with
  | nil => rfl
  | cons c cs ih =>
      have hc : p c = true := hl c (by simp)
      simp [List.takeWhile, hc, ih (fun y hy => hl y (by simp [hy]))]

theorem takeWhile_all (p : Char → Bool) (l : List Char)
    (hl : ∀ c ∈ l, p c = true) : l.takeWhile p = l := by
  have h := takeWhile_all_append p l [] hl
  simpa using h

theorem matchPatAt_none_of_prefix_false (pre sfx s : List Char)
    (h : pre.isPrefixOf s = false) : matchPatAt pre sfx s = none := by
  simp [matchPatAt, h]

/-- A successful anchored match: the literal prefix, a nonempty
all-alphanumeric capture, then the literal suffix ending the string; the
capture is exactly the alphanumeric run. -/
theorem matchPatAt_exact (pre sfx id : List Char)
    (hid : ∀ c ∈ id, isAlnum c = true) (hne : id ≠ [])
    (hsfx : sfx.takeWhile isAlnum = []) :
    matchPatAt pre sfx (pre ++ (id ++ sfx)) = some id := by
  have hgrp : (id ++ sfx).takeWhile isAlnum = id := by
    rw [takeWhile_all_append isAlnum id sfx hid, hsfx, List.append_nil]
  simp only [matchPatAt, isPrefixOf_self_append, if_pos]
  rw [List.drop_left, hgrp]
  simp [hne, List.drop_left, isPrefixOf_self]

/-- An anchored match that fails only because the (nonempty) literal suffix
would have to start past the end of the string. -/
theorem matchPatAt_sfx_fail (pre id : List Char) (c0 : Char) (sfx : List Char)
    (hid : ∀ c ∈ id, isAlnum c = true) :
    matchPatAt pre (c0 :: sfx) (pre ++ id) = none := by
  have hgrp : id.takeWhile isAlnum = id := takeWhile_all isAlnum id hid
  simp only [matchPatAt, isPrefixOf_self_append, if_pos]
  rw [List.drop_left, hgrp]
  have hdrop : id.drop id.length = ([] : List Char) := List.drop_length id
  rw [hdrop]
  simp [List.isPrefixOf]

theorem searchPat_cons_some (pre sfx : List Char) (c : Char) (cs g : List Char)
    (h : matchPatAt pre sfx (c :: cs) = some g) :
    searchPat pre sfx (c :: cs) = some g := by
  simp [searchPat, h]

theorem searchPat_cons_none (pre sfx : List Char) (c : Char) (cs : List Char)
    (h : matchPatAt pre sfx (c :: cs) = none) :
    searchPat pre sfx (c :: cs) = searchPat pre sfx cs := by
  simp [searchPat, h]

/-- Scanning a pattern that begins with `'/'` skips over any alphanumeric
run: no start position inside the run can match. -/
theorem searchPat_skip_alnum (p sfx : List Char) :
    ∀ l rest : List Char, (∀ c ∈ l, isAlnum c = true) →
      searchPat ('/' :: p) sfx (l ++ rest) = searchPat ('/' :: p) sfx rest := by
  intro l
  induction l with
  | nil => intro rest _; rfl
  | cons c cs ih =>
      intro rest hl
      have hc : isAlnum c = true := hl c (by simp)
      have hslash : '/' ≠ c := by
        intro h
        rw [← h] at hc
        cases hc
      have hm : matchPatAt ('/' :: p) sfx (c :: (cs ++ rest)) = none :=
        matchPatAt_none_of_prefix_false _ _ _ (isPrefixOf_cons_ne '/' c p (cs ++ rest) hslash)
      rw [List.cons_append, searchPat_cons_none _ _ _ _ hm,
        ih rest (fun y hy => hl y (by simp [hy]))]

/-- Scanning `blk ++ '/' :: id` for a pattern `'/' :: p` where `p` contains a
non-alphanumeric character, `blk` and `id` are all-alphanumeric: no match. -/
theorem searchPat_block_slash_id (p sfx blk : List Char) (id : String)
    (hblk : ∀ c ∈ blk, isAlnum c = true) (hid : ∀ c ∈ id.data, isAlnum c = true)
    (hp : ∃ c ∈ p, isAlnum c = false) :
    searchPat ('/' :: p) sfx (blk ++ '/' :: id.data) = none := by
  rw [searchPat_skip_alnum p sfx blk _ hblk]
  have hm : matchPatAt ('/' :: p) sfx ('/' :: id.data) = none := by
    apply matchPatAt_none_of_prefix_false
    rw [isPrefixOf_cons_same]
    exact isPrefixOf_false_of_nonalnum p id.data hp hid
  rw [searchPat_cons_none _ _ _ _ hm]
  have h2 : searchPat ('/' :: p) sfx (id.data ++ ([] : List Char)) = none := by
    rw [searchPat_skip_alnum p sfx id.data [] hid]
    rfl
  simpa using h2

/-- Scanning `'/' :: (blk ++ '/' :: id)` for `'/' :: p` when `p` does not
match at the leading slash either: no match anywhere. -/
theorem searchPat_slash_block (p sfx blk : List Char) (id : String)
    (hblk : ∀ c ∈ blk, isAlnum c = true) (hid : ∀ c ∈ id.data, isAlnum c = true)
    (hp : ∃ c ∈ p, isAlnum c = false)
    (hmis : p.isPrefixOf (blk ++ '/' :: id.data) = false) :
    searchPat ('/' :: p) sfx ('/' :: (blk ++ '/' :: id.data)) = none := by
  have hm : matchPatAt ('/' :: p) sfx ('/' :: (blk ++ '/' :: id.data)) = none := by
    apply matchPatAt_none_of_prefix_false
    rw [isPrefixOf_cons_same]
    exact hmis
  rw [searchPat_cons_none _ _ _ _ hm]
  exact searchPat_block_slash_id p sfx blk id hblk hid hp

theorem data_ne_nil_of_ne_empty (id : String) (h : id ≠ "") : id.data ≠ [] := by
  intro hd
  exact h (by rw [String.ext_iff, hd])

theorem extract_video_view_roundtrip (id : String) (hne : id ≠ "")
    (hid : ∀ c ∈ id.data, isAlnum c = true) :
    extractStoryId ("/video/" ++ id ++ "/view") = some id := by
  have hdata : ("/video/" ++ id ++ "/view").data =
      "/video/".data ++ (id.data ++ "/view".data) := by
    simp [String.data_append]
  have hcons : "/video/".data ++ (id.data ++ "/view".data) =
      '/' :: ("video/".data ++ (id.data ++ "/view".data)) := rfl
  have hm : matchPatAt "/video/".data "/view".data
      ("/video/".data ++ (id.data ++ "/view".data)) = some id.data :=
    matchPatAt_exact _ _ _ hid (data_ne_nil_of_ne_empty id hne) (by decide)
  rw [hcons] at hm
  have hs : searchPat "/video/".data "/view".data
      ("/video/" ++ id ++ "/view").data = some id.data := by
    rw [hdata, hcons]
    exact searchPat_cons_some _ _ _ _ _ hm
  simp only [extractStoryId, storyIdPatterns, firstPatternMatch, jsMatchPattern]
  rw [hs]
  rfl

theorem extract_video_roundtrip (id : String) (hne : id ≠ "")
    (hid : ∀ c ∈ id.data, isAlnum c = true) :
    extractStoryId ("/video/" ++ id) = some id := by
  have hdata : ("/video/" ++ id).data = "/video/".data ++ id.data := by
    simp [String.data_append]
  have hcons : "/video/".data ++ id.data =
      '/' :: ("video".data ++ '/' :: id.data) := by
    have h0 : "/video/".data ++ id.data = '/' :: ("video/".data ++ id.data) := rfl
    rw [h0]
    rfl
  -- the "/video/{id}/view" pattern fails everywhere on this URL
  have hm1 : matchPatAt "/video/".data "/view".data
      ("/video/".data ++ id.data) = none := by
    have h := matchPatAt_sfx_fail "/video/".data id.data '/' "view".data hid
    exact h
  have hs1 : searchPat "/video/".data "/view".data ("/video/" ++ id).data = none := by
    rw [hdata, hcons]
    rw [hcons] at hm1
    rw [searchPat_cons_none _ _ _ _ hm1]
    exact searchPat_block_slash_id "video/".data "/view".data "video".data id
      (by decide) hid (by decide)
  -- the "/video/{id}" pattern succeeds with capture id
  have hm2b : matchPatAt "/video/".data [] ("/video/".data ++ (id.data ++ [])) =
      some id.data :=
    matchPatAt_exact _ _ _ hid (data_ne_nil_of_ne_empty id hne) (by decide)
  rw [List.append_nil] at hm2b
  have hs2 : searchPat "/video/".data [] ("/video/" ++ id).data = some id.data := by
    rw [hdata, hcons]
    rw [hcons] at hm2b
    exact searchPat_cons_some _ _ _ _ _ hm2b
  simp only [extractStoryId, storyIdPatterns, firstPatternMatch, jsMatchPattern]
  rw [hs1, hs2]
  rfl

theorem extract_stories_roundtrip (id : String) (hne : id ≠ "")
    (hid : ∀ c ∈ id.data, isAlnum c = true) :
    extractStoryId ("/stories/" ++ id) = some id := by
  have hdata : ("/stories/" ++ id).data = "/stories/".data ++ id.data := by
    simp [String.data_append]
  have hcons : "/stories/".data ++ id.data =
      '/' :: ("stories".data ++ '/' :: id.data) := rfl
  -- both "/video/" patterns fail everywhere on this URL
  have hsv : ∀ sfx : List Char,
      searchPat "/video/".data sfx ("/stories/" ++ id).data = none := by
    intro sfx
    rw [hdata, hcons]
    exact searchPat_slash_block "video/".data sfx "stories".data id
      (by decide) hid (by decide)
      (isPrefixOf_cons_ne 'v' 's' _ _ (by decide))
  -- the "/stories/{id}" pattern succeeds
  have hm3 : matchPatAt "/stories/".data [] ("/stories/".data ++ (id.data ++ [])) =
      some id.data :=
    matchPatAt_exact _ _ _ hid (data_ne_nil_of_ne_empty id hne) (by decide)
  rw [List.append_nil] at hm3
  have hs3 : searchPat "/stories/".data [] ("/stories/" ++ id).data = some id.data := by
    rw [hdata, hcons]
    rw [hcons] at hm3
    exact searchPat_cons_some _ _ _ _ _ hm3
  simp only [extractStoryId, storyIdPatterns, firstPatternMatch, jsMatchPattern]
  rw [hsv "/view".data, hsv ([] : List Char), hs3]
  rfl

theorem extract_watch_roundtrip (id : String) (hne : id ≠ "")
    (hid : ∀ c ∈ id.data, isAlnum c = true) :
    extractStoryId ("/watch/" ++ id) = some id := by
  have hdata : ("/watch/" ++ id).data = "/watch/".data ++ id.data := by
    simp [String.data_append]
  have hcons : "/watch/".data ++ id.data =
      '/' :: ("watch".data ++ '/' :: id.data) := rfl
  have hsv : ∀ sfx : List Char,
      searchPat "/video/".data sfx ("/watch/" ++ id).data = none := by
    intro sfx
    rw [hdata, hcons]
    exact searchPat_slash_block "video/".data sfx "watch".data id
      (by decide) hid (by decide)
      (isPrefixOf_cons_ne 'v' 'w' _ _ (by decide))
  have hss : searchPat "/stories/".data [] ("/watch/" ++ id).data = none := by
    rw [hdata, hcons]
    exact searchPat_slash_block "stories/".data [] "watch".data id
      (by decide) hid (by decide)
      (isPrefixOf_cons_ne 's' 'w' _ _ (by decide))
  have hm4 : matchPatAt "/watch/".data [] ("/watch/".data ++ (id.data ++ [])) =
      some id.data :=
    matchPatAt_exact _ _ _ hid (data_ne_nil_of_ne_empty id hne) (by decide)
  rw [List.append_nil] at hm4
  have hs4 : searchPat "/watch/".data [] ("/watch/" ++ id).data = some id.data := by
    rw [hdata, hcons]
    rw [hcons] at hm4
    exact searchPat_cons_some _ _ _ _ _ hm4
  simp only [extractStoryId, storyIdPatterns, firstPatternMatch, jsMatchPattern]
  rw [hsv "/view".data, hsv ([] : List Char), hss, hs4]
  rfl

/-! ### Invariant predicates about cleaned records -/

mutual

/-- The deep no-null invariant the specification claims for canonical
records: no leaf anywhere (descending into arrays as well as objects) is
`null`/`undefined`, and no nested object is empty. -/
def valOkDeep : JVal → Bool
  | .jnull => false
  | .undefV => false
  | .arr xs => arrOkDeep xs
  | .obj .nil => false
  | .obj (.cons k v rest) => objOkDeep (.cons k v rest)
  | _ => true

def arrOkDeep : JArr → Bool
  | .nil => true
  | .cons v rest => valOkDeep v && arrOkDeep rest

def objOkDeep : JObj → Bool
  | .nil => true
  | .cons _ v rest => valOkDeep v && objOkDeep rest

end

/-- The invariant `cleanObject` actually establishes: along object fields
(without descending into arrays), no value is `null`/`undefined` and every
nested object is nonempty.  Array elements are not constrained. -/
def cleanInv : JObj → Bool
  | .nil => true
  | .cons _ (.jnull) _ => false
  | .cons _ (.undefV) _ => false
  | .cons _ (.obj .nil) _ => false
  | .cons _ (.obj (.cons k1 v1 fs)) rest => cleanInv (.cons k1 v1 fs) && cleanInv rest
  | .cons _ _ rest => cleanInv rest

/-- A field value that `cleanObject` keeps verbatim: neither `null`/`undefined`
(deleted) nor an object (recursed into). -/
def keptLeaf : JVal → Bool
  | .jnull => false
  | .undefV => false
  | .obj _ => false
  | _ => true

/-! ### Lemmas about `cleanObject` -/

theorem cleanObject_idem (o : JObj) : cleanObject (cleanObject o) = cleanObject o := by
  match o with
  | .nil => rfl
  | .cons k (.jnull) rest => simpa [cleanObject] using cleanObject_idem rest
  | .cons k (.undefV) rest => simpa [cleanObject] using cleanObject_idem rest
  | .cons k (.obj fs) rest =>
      have ih1 := cleanObject_idem fs
      have ih2 := cleanObject_idem rest
      cases h : cleanObject fs with
      | nil => simp [cleanObject, h, ih2]
      | cons k1 v1 fs2 =>
          rw [h] at ih1
          simp [cleanObject, h, ih1, ih2]
  | .cons k (.bool b) rest => simp [cleanObject, cleanObject_idem rest]
  | .cons k (.num q) rest => simp [cleanObject, cleanObject_idem rest]
  | .cons k (.str s) rest => simp [cleanObject, cleanObject_idem rest]
  | .cons k (.arr xs) rest => simp [cleanObject, cleanObject_idem rest]

theorem cleanInv_cleanObject (o : JObj) : cleanInv (cleanObject o) = true := by
  match o with
  | .nil => rfl
  | .cons k (.jnull) rest => simpa [cleanObject] using cleanInv_cleanObject rest
  | .cons k (.undefV) rest => simpa [cleanObject] using cleanInv_cleanObject rest
  | .cons k (.obj fs) rest =>
      have ih1 := cleanInv_cleanObject fs
      have ih2 := cleanInv_cleanObject rest
      cases h : cleanObject fs with
      | nil => simp [cleanObject, h, ih2]
      | cons k1 v1 fs2 =>
          rw [h] at ih1
          simp [cleanObject, h, ih1, ih2, cleanInv]
  | .cons k (.bool b) rest => simpa [cleanObject, cleanInv] using cleanInv_cleanObject rest
  | .cons k (.num q) rest => simpa [cleanObject, cleanInv] using cleanInv_cleanObject rest
  | .cons k (.str s) rest => simpa [cleanObject, cleanInv] using cleanInv_cleanObject rest
  | .cons k (.arr xs) rest => simpa [cleanObject, cleanInv] using cleanInv_cleanObject rest

theorem cleanObject_get_kept (o : JObj) (key : String) (v : JVal)
    (hv : keptLeaf v = true) (h : o.get key = v) : (cleanObject o).get key = v := by
  match o with
  | .nil =>
      simp [JObj.get] at h
      subst h
      simp [keptLeaf] at hv
  | .cons k w rest =>
      by_cases hk : k = key
      · subst hk
        simp [JObj.get] at h
        subst h
        cases w with
        | jnull => simp [keptLeaf] at hv
        | undefV => simp [keptLeaf] at hv
        | obj fs => simp [keptLeaf] at hv
        | bool b => simp [cleanObject, JObj.get]
        | num q => simp [cleanObject, JObj.get]
        | str s => simp [cleanObject, JObj.get]
        | arr xs => simp [cleanObject, JObj.get]
      · rw [JObj.get, if_neg hk] at h
        have ih := cleanObject_get_kept rest key v hv h
        cases w with
        | jnull => simpa [cleanObject] using ih
        | undefV => simpa [cleanObject] using ih
        | obj fs =>
            cases hc : cleanObject fs with
            | nil => simpa [cleanObject, hc] using ih
            | cons k1 v1 fs2 => simpa [cleanObject, hc, JObj.get, hk] using ih
        | bool b => simpa [cleanObject, JObj.get, hk] using ih
        | num q => simpa [cleanObject, JObj.get, hk] using ih
        | str s => simpa [cleanObject, JObj.get, hk] using ih
        | arr xs => simpa [cleanObject, JObj.get, hk] using ih

/-! ### Concrete fixtures -/

/-- A document payload `{story: {chapters: [{timestamp: 10, title: "Intro"}]}}`. -/
def docExample : JVal :=
  .obj (.cons "story"
    (.obj (.cons "chapters"
      (.arr (.cons
        (.obj (.cons "timestamp" (.num 10) (.cons "title" (.str "Intro") .nil)))
        .nil)) .nil)) .nil)

/-- The chapter entry `parseDocumentData` produces for `docExample`: its `id`
is `null` and survives inside the chapters array. -/
def docRecordChapterEntry : JVal :=
  .obj (.cons "id" .jnull
    (.cons "timestamp" (.num 10)
      (.cons "timestampFormatted" (.str "0:10")
        (.cons "title" (.str "Intro")
          (.cons "description" (.str "") .nil)))))

/-- The canonical record `parseDocumentData (.str "abc") docExample .jnull
"u" "t" "1.0"` returns. -/
def docRecordExample : JObj :=
  .cons "video"
    (.obj (.cons "id" (.str "abc")
      (.cons "description" (.str "")
        (.cons "url" (.str "u")
          (.cons "views" (.num 0) .nil)))))
    (.cons "content"
      (.obj (.cons "chapters" (.arr (.cons docRecordChapterEntry .nil)) .nil))
      (.cons "metadata"
        (.obj (.cons "extractedAt" (.str "t")
          (.cons "pageUrl" (.str "u")
            (.cons "extractionMethod" (.str "api")
              (.cons "extensionVersion" (.str "1.0") .nil)))))
        .nil))

/-! ### C4 -/

/-- C4: the recursive prune step `cleanObject` is idempotent — applying it
twice to any record yields the same result as applying it once — and the
record `{a: null, b: {c: null}, d: 0, e: ""}` prunes to exactly
`{d: 0, e: ""}`. -/
theorem cleanObject_idempotent_and_example :
    (∀ o : JObj, cleanObject (cleanObject o) = cleanObject o) ∧
    cleanObject
        (.cons "a" .jnull
          (.cons "b" (.obj (.cons "c" .jnull .nil))
            (.cons "d" (.num 0)
              (.cons "e" (.str "") .nil)))) =
      .cons "d" (.num 0) (.cons "e" (.str "") .nil) :=
  ⟨cleanObject_idem, rfl⟩

/-! ### C10 -/

/-- C10: `cleanObject` never descends into or removes arrays — every key of
the input bound to an array is, after pruning, still present and bound to the
identical array (so empty arrays are kept and `null`/`undefined` fields
inside array element objects are left intact). -/
theorem cleanObject_preserves_arrays (o : JObj) (key : String) (xs : JArr)
    (h : o.get key = .arr xs) : (cleanObject o).get key = .arr xs :=
  cleanObject_get_kept o key (.arr xs) rfl h

/-- Witness for C10: a record with an empty array and an array whose element
object holds a `null` field, both preserved verbatim by `cleanObject`. -/
theorem cleanObject_preserves_arrays_witness :
    (cleanObject
        (.cons "a" .jnull
          (.cons "chapters"
            (.arr (.cons (.obj (.cons "id" .jnull .nil)) .nil))
            (.cons "empty" (.arr .nil) .nil)))).get "chapters" =
      .arr (.cons (.obj (.cons "id" .jnull .nil)) .nil) :=
  cleanObject_preserves_arrays _ "chapters" _ rfl

/-! ### C3 -/

/-- C3 (amended): every canonical record returned by `parseDocumentData`
satisfies the pruning invariant along object fields — no value reachable
through object fields without entering an array is `null`/`undefined`, and no
such nested object is empty — while empty strings and `0` are preserved.
(Leaves inside array elements are not pruned; see the counterexample.) -/
theorem parseDocumentData_pruning_invariant :
    (∀ storyId data td : JVal, ∀ pageUrl nowIso extVersion : String, ∀ r : JObj,
        parseDocumentData storyId data td pageUrl nowIso extVersion = .ok r →
        cleanInv r = true) ∧
    (∀ o : JObj, ∀ key : String, ∀ s : String,
        o.get key = .str s → (cleanObject o).get key = .str s) ∧
    (∀ o : JObj, ∀ key : String, ∀ q : ℚ,
        o.get key = .num q → (cleanObject o).get key = .num q) := by
  refine ⟨?_, ?_, ?_⟩
  · intro storyId data td pageUrl nowIso extVersion r h
    unfold parseDocumentData at h
    cases hb : buildExtractedData storyId data td pageUrl nowIso extVersion with
    | error e => rw [hb] at h; cases h
    | ok x =>
        rw [hb] at h
        simp only [Except.map] at h
        cases h
        exact cleanInv_cleanObject x
  · intro o key s h
    exact cleanObject_get_kept o key (.str s) rfl h
  · intro o key q h
    exact cleanObject_get_kept o key (.num q) rfl h

/-- Witness for C3 (amended), at the concrete `docExample` input. -/
theorem parseDocumentData_pruning_invariant_witness :
    cleanInv docRecordExample = true ∧
    (cleanObject (.cons "e" (.str "") .nil)).get "e" = .str "" ∧
    (cleanObject (.cons "d" (.num 0) .nil)).get "d" = .num 0 :=
  ⟨parseDocumentData_pruning_invariant.1 (.str "abc") docExample .jnull "u" "t" "1.0"
      docRecordExample (by decide),
    parseDocumentData_pruning_invariant.2.1 (.cons "e" (.str "") .nil) "e" "" (by decide),
    parseDocumentData_pruning_invariant.2.2 (.cons "d" (.num 0) .nil) "d" 0 (by decide)⟩

/-- Counterexample for C3 as stated: the record returned for `docExample`
keeps a `null` leaf inside an array element — the chapter entry's `id` — so
the claimed "no leaf anywhere in the record, including inside array elements,
is null" is false of the code. -/
theorem parseDocumentData_null_in_array_counterexample :
    parseDocumentData (.str "abc") docExample .jnull "u" "t" "1.0" = .ok docRecordExample ∧
    (docRecordExample.get "content").getF "chapters" =
      .ok (.arr (.cons docRecordChapterEntry .nil)) ∧
    docRecordChapterEntry.getF "id" = .ok .jnull ∧
    objOkDeep docRecordExample = false := by
  refine ⟨by decide, by decide, by decide, by decide⟩

/-! ### C1 -/

/-- C1: for every input to the duration normalizer `formatDuration`, a
numeric value strictly greater than 10000 is classified as milliseconds and
normalized to `floor(value/1000)` seconds; a numeric value in `(0, 10000]` is
normalized to `floor(value)` seconds; and any value that is `≤ 0` or carries
no numeric value (null, undefined, booleans, arrays, unparsable strings)
normalizes to `null` (absent), never zero — a numeric string normalizes like
the number it parses to.  In particular 45 ↦ 45, 45000 ↦ 45, 9999 ↦ 9999,
10001 ↦ 10, and 0 or a negative value ↦ absent. -/
theorem formatDuration_spec :
    (∀ v : ℚ, 10000 < v → formatDuration (.num v) = some (Rat.floor (v / 1000))) ∧
    (∀ v : ℚ, 0 < v → v ≤ 10000 → formatDuration (.num v) = some (Rat.floor v)) ∧
    (∀ v : ℚ, v ≤ 0 → formatDuration (.num v) = none) ∧
    (∀ s : String, ∀ v : ℚ, jsParseFloat s = some v →
        formatDuration (.str s) = formatDuration (.num v)) ∧
    (∀ s : String, jsParseFloat s = none → formatDuration (.str s) = none) ∧
    formatDuration .jnull = none ∧
    formatDuration .undefV = none ∧
    (∀ b : Bool, formatDuration (.bool b) = none) ∧
    (∀ xs : JArr, formatDuration (.arr xs) = none) ∧
    formatDuration (.num 45) = some 45 ∧
    formatDuration (.num 45000) = some 45 ∧
    formatDuration (.num 9999) = some 9999 ∧
    formatDuration (.num 10001) = some 10 ∧
    formatDuration (.num 0) = none ∧
    formatDuration (.num (-30)) = none := by
  refine ⟨?_, ?_, ?_, ?_, ?_, rfl, rfl, fun b => rfl, fun xs => rfl,
    by decide, by decide, by decide, by decide, by decide, by decide⟩
  · intro v h
    have h0 : ¬ v ≤ 0 := by linarith
    simp [formatDuration, normalizeDurationValue, h0, h, ratDivNat_eq]
  · intro v h1 h2
    have h0 : ¬ v ≤ 0 := by linarith
    have h3 : ¬ 10000 < v := by linarith
    simp [formatDuration, normalizeDurationValue, h0, h3]
  · intro v h
    simp [formatDuration, normalizeDurationValue, h]
  · intro s v h
    simp [formatDuration, h]
  · intro s h
    simp [formatDuration, h]

/-- Witness for C1, exercising every hypothesis at concrete inputs. -/
theorem formatDuration_spec_witness :
    ((10000 : ℚ) < 45000 ∧
      formatDuration (.num 45000) = some (Rat.floor ((45000 : ℚ) / 1000))) ∧
    ((0 : ℚ) < 45 ∧ (45 : ℚ) ≤ 10000 ∧
      formatDuration (.num 45) = some (Rat.floor (45 : ℚ))) ∧
    ((-30 : ℚ) ≤ 0 ∧ formatDuration (.num (-30)) = none) ∧
    (jsParseFloat "45" = some 45 ∧
      formatDuration (.str "45") = formatDuration (.num 45)) ∧
    (jsParseFloat "abc" = none ∧ formatDuration (.str "abc") = none) :=
  ⟨⟨by decide, formatDuration_spec.1 45000 (by decide)⟩,
    ⟨by decide, by decide, formatDuration_spec.2.1 45 (by decide) (by decide)⟩,
    ⟨by decide, formatDuration_spec.2.2.1 (-30) (by decide)⟩,
    ⟨by decide, formatDuration_spec.2.2.2.1 "45" 45 (by decide)⟩,
    ⟨by decide, formatDuration_spec.2.2.2.2.1 "abc" (by decide)⟩⟩

/-! ### Lemmas about `parseTranscriptionData` -/

theorem JVal.getF_ok_of_truthy (v : JVal) (k : String) (h : v.truthy = true) :
    v.getF k = .ok (optChain v k) := by
  cases v <;> simp_all [JVal.truthy, JVal.getF, optChain]

theorem transcriptionMetaFields_get_absent (ts : JVal) (k : String)
    (h1 : k ≠ "transcriptionMetadata") (h2 : k ≠ "transcriptionStatus")
    (h3 : k ≠ "transcriptionDetails") :
    (transcriptionMetaFields ts).get k = .undefV := by
  unfold transcriptionMetaFields
  split
  · split
    · split <;> simp [JObj.get, Ne.symm h1, Ne.symm h2, Ne.symm h3]
    · simp [JObj.get, Ne.symm h1]
  · rfl

theorem transcriptionMetaFields_append_get (ts : JVal) (o : JObj) (k : String)
    (h1 : k ≠ "transcriptionMetadata") (h2 : k ≠ "transcriptionStatus")
    (h3 : k ≠ "transcriptionDetails") :
    ((transcriptionMetaFields ts).append o).get k = o.get k := by
  unfold transcriptionMetaFields
  split
  · split
    · split <;> simp [JObj.append, JObj.get, Ne.symm h1, Ne.symm h2, Ne.symm h3]
    · simp [JObj.append, JObj.get, Ne.symm h1]
  · rfl

/-- Unfolding of `parseTranscriptionData` on a truthy payload whose words
resolved to an array. -/
theorem parseTranscriptionData_arr_eq (td : JVal) (ws : JArr)
    (ht : td.truthy = true) (hw : resolveWords td = .ok (.arr ws)) :
    parseTranscriptionData td =
      (formatTranscriptFromWords ws).bind (fun t =>
        (calculateTranscriptDuration ws).bind (fun dur =>
          .ok ((transcriptionMetaFields (optChain td "transcriptions")).append
            (.cons "transcriptionWords" (.arr ws)
              (.cons "transcript" (.str t)
                (.cons "transcriptWordCount" (.num (ws.length : ℚ))
                  (.cons "transcriptDurationMs" dur .nil))))))) := by
  simp [parseTranscriptionData, ht, JVal.getF_ok_of_truthy td _ ht, hw, Bind.bind,
    Except.bind, pure, Except.pure]

/-- Unfolding of `parseTranscriptionData` on a truthy payload whose words did
not resolve to an array: only the metadata fields are returned. -/
theorem parseTranscriptionData_nonarr_eq (td w : JVal)
    (ht : td.truthy = true) (hw : resolveWords td = .ok w) (hna : w.isArr = false) :
    parseTranscriptionData td =
      .ok (transcriptionMetaFields (optChain td "transcriptions")) := by
  cases w <;> simp_all [JVal.isArr] <;>
    simp [parseTranscriptionData, ht, JVal.getF_ok_of_truthy td _ ht, hw, Bind.bind,
      Except.bind, pure, Except.pure]

/-! ### Structured words (the spec's view of a transcript word) -/

/-- A transcript word as the specification describes one: a text and a hidden
flag. -/
structure SpecWord where
  text : String
  hidden : Bool
deriving DecidableEq

def specWordJVal (w : SpecWord) : JVal :=
  .obj (.cons "text" (.str w.text) (.cons "hidden" (.bool w.hidden) .nil))

def specWordsJArr : List SpecWord → JArr
  | [] => .nil
  | w :: ws => .cons (specWordJVal w) (specWordsJArr ws)

/-- The visible word texts as the spec describes them: drop words that are
hidden or whose text is empty/whitespace-only, trim the rest. -/
def specVisibleTexts (ws : List SpecWord) : List String :=
  (ws.filter (fun w => !w.hidden && !(jsTrim w.text == ""))).map (fun w => jsTrim w.text)

/-- The assembled transcript as the spec describes it. -/
def specTranscript (ws : List SpecWord) : String :=
  String.intercalate " " (specVisibleTexts ws)

theorem string_length_pos_iff (s : String) : (0 < s.length) ↔ s ≠ "" := by
  cases s with
  | mk data =>
      cases data with
      | nil => simp
      | cons c cs => simp [String.length, String.ext_iff]

theorem jsTrim_empty : jsTrim "" = "" := rfl

theorem wordTextsTrimmed_spec (l : List SpecWord) :
    wordTextsTrimmed (specWordsJArr l) = .ok (specVisibleTexts l) := by
  induction l with
  | nil => rfl
  | cons w ws ih =>
      by_cases hh : w.hidden
      · simp [specWordsJArr, wordTextsTrimmed, specWordJVal, JVal.getF, JObj.get,
          JVal.truthy, Bind.bind, Except.bind, pure, Except.pure, hh, ih,
          specVisibleTexts, List.filter]
      · by_cases he : w.text = ""
        · simp [specWordsJArr, wordTextsTrimmed, specWordJVal, JVal.getF, JObj.get,
            JVal.truthy, Bind.bind, Except.bind, pure, Except.pure, hh, he, ih,
            specVisibleTexts, List.filter, jsTrim_empty]
        · by_cases htr : jsTrim w.text = ""
          · have hlen : ¬ 0 < (jsTrim w.text).length := by
              simp [string_length_pos_iff, htr]
            have hbeq : (jsTrim w.text == "") = true := beq_iff_eq.mpr htr
            simp [specWordsJArr, wordTextsTrimmed, specWordJVal, JVal.getF, JObj.get,
              JVal.truthy, Bind.bind, Except.bind, pure, Except.pure, hh, he, htr,
              hbeq, hlen, ih, specVisibleTexts, List.filter]
          · have hlen : 0 < (jsTrim w.text).length := by
              simp [string_length_pos_iff, htr]
            have hbeq : (jsTrim w.text == "") = false := beq_eq_false_iff_ne.mpr htr
            simp [specWordsJArr, wordTextsTrimmed, specWordJVal, JVal.getF, JObj.get,
              JVal.truthy, Bind.bind, Except.bind, pure, Except.pure, hh, he, htr,
              hbeq, hlen, ih, specVisibleTexts, List.filter]

theorem formatTranscriptFromWords_spec (l : List SpecWord) :
    formatTranscriptFromWords (specWordsJArr l) = .ok (specTranscript l) := by
  simp [formatTranscriptFromWords, wordTextsTrimmed_spec l, specTranscript, Bind.bind,
    Except.bind, pure, Except.pure]

/-- The three-word example array of C2. -/
def wordsHello : JArr :=
  specWordsJArr [⟨"Hello", false⟩, ⟨"secret", true⟩, ⟨"world", false⟩]

def tdHello : JVal := .obj (.cons "words" (.arr wordsHello) .nil)

/-- What `parseTranscriptionData` returns for `tdHello`. -/
def tdHelloResult : JObj :=
  .cons "transcriptionWords" (.arr wordsHello)
    (.cons "transcript" (.str "Hello world")
      (.cons "transcriptWordCount" (.num 3)
        (.cons "transcriptDurationMs" (.num 0) .nil)))

/-! ### C2 -/

/-- C2 (amended): the assembled transcript equals the word texts with hidden
or empty/whitespace-only entries filtered out, each remaining text trimmed,
joined with single spaces; but the reported `transcriptWordCount` is the
length of the *resolved, unfiltered* word array (no explicit count field is
consulted) — for the Hello/secret/world example the transcript is
`"Hello world"` and the count is 3. -/
theorem transcript_assembly_and_count :
    (∀ l : List SpecWord,
        formatTranscriptFromWords (specWordsJArr l) = .ok (specTranscript l)) ∧
    (∀ td : JVal, ∀ ws : JArr, ∀ r : JObj,
        td.truthy = true → resolveWords td = .ok (.arr ws) →
        parseTranscriptionData td = .ok r →
        r.get "transcriptWordCount" = .num (ws.length : ℚ)) ∧
    formatTranscriptFromWords wordsHello = .ok "Hello world" ∧
    (wordsHello.length : ℚ) = 3 := by
  refine ⟨formatTranscriptFromWords_spec, ?_, by decide, by decide⟩
  intro td ws r ht hw hr
  rw [parseTranscriptionData_arr_eq td ws ht hw] at hr
  cases hft : formatTranscriptFromWords ws with
  | error e => rw [hft] at hr; cases hr
  | ok t =>
      rw [hft] at hr
      cases hdur : calculateTranscriptDuration ws with
      | error e => rw [hdur] at hr; cases hr
      | ok dur =>
          rw [hdur] at hr
          simp only [Except.bind] at hr
          cases hr
          rw [transcriptionMetaFields_append_get _ _ _ (by decide) (by decide) (by decide)]
          simp [JObj.get]

/-- Witness for C2 (amended), at the concrete `tdHello` input. -/
theorem transcript_assembly_and_count_witness :
    formatTranscriptFromWords (specWordsJArr
        [⟨"Hello", false⟩, ⟨"secret", true⟩, ⟨"world", false⟩]) =
      .ok (specTranscript [⟨"Hello", false⟩, ⟨"secret", true⟩, ⟨"world", false⟩]) ∧
    tdHello.truthy = true ∧
    resolveWords tdHello = .ok (.arr wordsHello) ∧
    parseTranscriptionData tdHello = .ok tdHelloResult ∧
    tdHelloResult.get "transcriptWordCount" = .num (wordsHello.length : ℚ) :=
  ⟨transcript_assembly_and_count.1 _, by decide, by decide, by decide,
    transcript_assembly_and_count.2.1 tdHello wordsHello tdHelloResult
      (by decide) (by decide) (by decide)⟩

/-- C2 counterexample (to the claim as stated): for the three-word example
with one hidden word, the filtered word list has length 2, but the code
reports `transcriptWordCount = 3` — the raw array length. -/
theorem transcript_wordCount_counterexample :
    parseTranscriptionData tdHello = .ok tdHelloResult ∧
    tdHelloResult.get "transcript" = .str "Hello world" ∧
    wordTextsTrimmed wordsHello = .ok ["Hello", "world"] ∧
    tdHelloResult.get "transcriptWordCount" = .num 3 ∧
    (3 : ℚ) ≠ 2 :=
  ⟨by decide, by decide, by decide, by decide, by decide⟩

/-! ### C5 -/

/-- The transcription payload `{transcriptions: ["done", [null]]}`: neither
words location yields an array, and the nested lookup faults. -/
def tdBad : JVal :=
  .obj (.cons "transcriptions"
    (.arr (.cons (.str "done") (.cons (.arr (.cons .jnull .nil)) .nil))) .nil)

/-- C5 (amended): the normalizer resolves the word array by trying the
top-level `words` field first and, only if that is not an array, the nested
`transcriptions[1][0].words` location; if neither location yields an array
the result carries no transcript fields and no error is raised — *except*
that when `transcriptions[1]` is a nonempty array whose first element is
`null`/`undefined`, the nested access itself throws and the error propagates
(see the counterexample).  A falsy payload yields the empty record. -/
theorem transcript_words_resolution :
    (∀ td : JVal, ∀ ws : JArr, td.getF "words" = .ok (.arr ws) →
        resolveWords td = .ok (.arr ws)) ∧
    (∀ td w : JVal, ∀ xs ds : JArr, ∀ nw : JVal,
        td.getF "words" = .ok w → (w.truthy && w.isArr) = false →
        td.getF "transcriptions" = .ok (.arr xs) → 1 < xs.length →
        xs.getIdx 1 = .arr ds → 0 < ds.length →
        (ds.getIdx 0).getF "words" = .ok nw →
        resolveWords td = .ok nw) ∧
    (∀ td w : JVal, td.truthy = true → resolveWords td = .ok w → w.isArr = false →
        parseTranscriptionData td =
          .ok (transcriptionMetaFields (optChain td "transcriptions")) ∧
        (transcriptionMetaFields (optChain td "transcriptions")).get
          "transcriptionWords" = .undefV ∧
        (transcriptionMetaFields (optChain td "transcriptions")).get "transcript" = .undefV ∧
        (transcriptionMetaFields (optChain td "transcriptions")).get
          "transcriptWordCount" = .undefV ∧
        (transcriptionMetaFields (optChain td "transcriptions")).get
          "transcriptDurationMs" = .undefV) ∧
    (∀ td : JVal, td.truthy = false → parseTranscriptionData td = .ok .nil) := by
  refine ⟨?_, ?_, ?_, ?_⟩
  · intro td ws h
    simp [resolveWords, h, JVal.truthy, JVal.isArr, Bind.bind, Except.bind, pure,
      Except.pure]
  · intro td w xs ds nw hw hna hts hlen hidx hdlen hnw
    simp [resolveWords, hw, hna, hts, hlen, hidx, hdlen, hnw, Bind.bind,
      Except.bind, pure, Except.pure]
  · intro td w ht hw hna
    refine ⟨parseTranscriptionData_nonarr_eq td w ht hw hna, ?_, ?_, ?_, ?_⟩ <;>
      exact transcriptionMetaFields_get_absent _ _ (by decide) (by decide) (by decide)
  · intro td ht
    simp [parseTranscriptionData, ht, Bind.bind, Except.bind, pure, Except.pure]

/-- Witness for C5 (amended): the flat location wins at `tdHello`; the nested
location is used when the flat one is absent; a payload with no words array
in either location yields a record with no transcript fields and no error. -/
theorem transcript_words_resolution_witness :
    resolveWords tdHello = .ok (.arr wordsHello) ∧
    resolveWords (.obj (.cons "transcriptions"
        (.arr (.cons (.str "done")
          (.cons (.arr (.cons (.obj (.cons "words" (.arr wordsHello) .nil)) .nil))
            .nil))) .nil)) = .ok (.arr wordsHello) ∧
    parseTranscriptionData (.obj (.cons "transcriptions" (.str "pending") .nil)) =
      .ok (transcriptionMetaFields (optChain
        (.obj (.cons "transcriptions" (.str "pending") .nil)) "transcriptions")) ∧
    (transcriptionMetaFields (optChain
        (.obj (.cons "transcriptions" (.str "pending") .nil)) "transcriptions")).get
      "transcript" = .undefV ∧
    parseTranscriptionData .jnull = .ok .nil := by
  refine ⟨transcript_words_resolution.1 tdHello wordsHello (by decide),
    transcript_words_resolution.2.1 _ .undefV
      (.cons (.str "done")
        (.cons (.arr (.cons (.obj (.cons "words" (.arr wordsHello) .nil)) .nil)) .nil))
      (.cons (.obj (.cons "words" (.arr wordsHello) .nil)) .nil)
      (.arr wordsHello)
      (by decide) (by decide) (by decide) (by decide) (by decide) (by decide) (by decide),
    (transcript_words_resolution.2.2.1 _ .jnull (by decide) (by decide) (by decide)).1,
    (transcript_words_resolution.2.2.1 _ .jnull (by decide) (by decide) (by decide)).2.2.1,
    transcript_words_resolution.2.2.2 .jnull (by decide)⟩

/-- C5 counterexample (to the claim as stated): for
`{transcriptions: ["done", [null]]}` neither location yields an array —
`words` is undefined — yet the nested access `transcriptions[1][0].words`
throws, so an error *is* raised. -/
theorem transcription_fault_counterexample :
    tdBad.getF "words" = .ok .undefV ∧
    parseTranscriptionData tdBad = .error () :=
  ⟨by decide, by decide⟩

/-! ### C6 -/

/-- C6: the two fetch outcomes are handled asymmetrically — with a non-null
identifier, a failed document fetch (non-2xx, network error or malformed
JSON, all of which `fetchDocumentData` maps to `null`) makes the whole
structured-source path return `null`, whatever the transcription fetch did;
while a failed transcription fetch alone makes extraction proceed with a
`null` transcription and still return the record built from the document
data. -/
theorem extractFromAPI_fetch_asymmetry :
    (∀ sid : String, ∀ docO transO : FetchOutcome, ∀ pageUrl nowIso extVersion : String,
        fetchDocumentData docO = none →
        extractFromAPI (some sid) docO transO pageUrl nowIso extVersion = none) ∧
    (∀ sid : String, ∀ d : JVal, ∀ transO : FetchOutcome,
        ∀ pageUrl nowIso extVersion : String, ∀ r : JObj,
        fetchTranscriptionData transO = none →
        d.truthy = true →
        parseDocumentData (.str sid) d .jnull pageUrl nowIso extVersion = .ok r →
        extractFromAPI (some sid) (.success d) transO pageUrl nowIso extVersion = some r) := by
  constructor
  · intro sid docO transO pageUrl nowIso extVersion h
    simp [extractFromAPI, h]
  · intro sid d transO pageUrl nowIso extVersion r ht hd hp
    simp [extractFromAPI, fetchDocumentData, ht, hd, hp]

/-- Witness for C6: a network error on the document fetch kills the path; a
404 on the transcription fetch still yields the document-derived record. -/
theorem extractFromAPI_fetch_asymmetry_witness :
    (fetchDocumentData .networkError = none ∧
      extractFromAPI (some "abc") .networkError .networkError "u" "t" "1.0" = none) ∧
    (fetchTranscriptionData (.httpError 404) = none ∧
      docExample.truthy = true ∧
      parseDocumentData (.str "abc") docExample .jnull "u" "t" "1.0" = .ok docRecordExample ∧
      extractFromAPI (some "abc") (.success docExample) (.httpError 404) "u" "t" "1.0" =
        some docRecordExample) :=
  ⟨⟨rfl, extractFromAPI_fetch_asymmetry.1 "abc" .networkError .networkError "u" "t" "1.0" rfl⟩,
    ⟨rfl, by decide, by decide,
      extractFromAPI_fetch_asymmetry.2 "abc" docExample (.httpError 404) "u" "t" "1.0"
        docRecordExample rfl (by decide) (by decide)⟩⟩

/-! ### C7 -/

/-- C7: the identifier resolver tries the patterns `/video/{id}/view`,
`/video/{id}`, `/stories/{id}`, `/watch/{id}` in that order and returns the
capture group of the first pattern that matches; for a URL matching none of
these shapes it returns `null`.  (Determinism and freedom from side effects
hold by construction: the embedding is a total function of the URL alone,
faithful to the source, which reads only `window.location.href`.)  The
concrete `/stories/aa/video/bb` case shows the ordering: the `/video/`
pattern is tried before `/stories/` even though `/stories/` matches earlier
in the string. -/
theorem extractStoryId_spec :
    (∀ id : String, id ≠ "" → (∀ c ∈ id.data, isAlnum c = true) →
        extractStoryId ("/video/" ++ id ++ "/view") = some id ∧
        extractStoryId ("/video/" ++ id) = some id ∧
        extractStoryId ("/stories/" ++ id) = some id ∧
        extractStoryId ("/watch/" ++ id) = some id) ∧
    (∀ url : String,
        jsMatchPattern "/video/" "/view" url = none →
        jsMatchPattern "/video/" "" url = none →
        jsMatchPattern "/stories/" "" url = none →
        jsMatchPattern "/watch/" "" url = none →
        extractStoryId url = none) ∧
    extractStoryId "https://www.tella.tv/video/abc123/view" = some "abc123" ∧
    extractStoryId "https://www.tella.tv/stories/xY9" = some "xY9" ∧
    extractStoryId "https://www.tella.tv/watch/q7" = some "q7" ∧
    extractStoryId "/stories/aa/video/bb" = some "bb" ∧
    extractStoryId "https://www.tella.tv/home" = none := by
  refine ⟨?_, ?_, by decide, by decide, by decide, by decide, by decide⟩
  · intro id hne hid
    exact ⟨extract_video_view_roundtrip id hne hid, extract_video_roundtrip id hne hid,
      extract_stories_roundtrip id hne hid, extract_watch_roundtrip id hne hid⟩
  · intro url h1 h2 h3 h4
    simp only [extractStoryId, storyIdPatterns, firstPatternMatch]
    rw [h1, h2, h3, h4]

/-- Witness for C7 at the concrete identifier `"abc123"` and a concrete
non-matching URL. -/
theorem extractStoryId_spec_witness :
    (("abc123" : String) ≠ "" ∧ (∀ c ∈ ("abc123" : String).data, isAlnum c = true) ∧
      extractStoryId ("/video/" ++ "abc123" ++ "/view") = some "abc123" ∧
      extractStoryId ("/video/" ++ "abc123") = some "abc123" ∧
      extractStoryId ("/stories/" ++ "abc123") = some "abc123" ∧
      extractStoryId ("/watch/" ++ "abc123") = some "abc123") ∧
    (jsMatchPattern "/video/" "/view" "https://www.tella.tv/home" = none ∧
      extractStoryId "https://www.tella.tv/home" = none) := by
  refine ⟨⟨by decide, by decide, ?_, ?_, ?_, ?_⟩, by decide, ?_⟩
  · exact (extractStoryId_spec.1 "abc123" (by decide) (by decide)).1
  · exact (extractStoryId_spec.1 "abc123" (by decide) (by decide)).2.1
  · exact (extractStoryId_spec.1 "abc123" (by decide) (by decide)).2.2.1
  · exact (extractStoryId_spec.1 "abc123" (by decide) (by decide)).2.2.2
  · exact extractStoryId_spec.2.1 "https://www.tella.tv/home"
      (by decide) (by decide) (by decide) (by decide)

/-! ### C8 -/

theorem JObj.set_get_ne (o : JObj) (key : String) (v : JVal) (k2 : String)
    (h : k2 ≠ key) : (o.set key v).get k2 = o.get k2 := by
  match o with
  | .nil => simp [JObj.set, JObj.get, Ne.symm h]
  | .cons k1 v1 rest =>
      by_cases hk : k1 = key
      · subst hk
        simp [JObj.set, JObj.get, Ne.symm h]
      · simp [JObj.set, JObj.get, hk, JObj.set_get_ne rest key v k2 h]

/-- A chapter as the claim describes one for the markdown rendering: a
formatted timestamp, a title and a description (all strings). -/
structure MdChapter where
  ts : String
  title : String
  desc : String

def mdChapterJVal (c : MdChapter) : JVal :=
  .obj (.cons "timestampFormatted" (.str c.ts)
    (.cons "title" (.str c.title)
      (.cons "description" (.str c.desc) .nil)))

def mdChaptersJArr : List MdChapter → JArr
  | [] => .nil
  | c :: cs => .cons (mdChapterJVal c) (mdChaptersJArr cs)

/-- One markdown line as the claim describes it: `- MM:SS Title - Description`
with the ` - Description` suffix omitted when the chapter has no description
(the code defaults an empty title to `"Untitled"` and an empty timestamp to
`"00:00"`). -/
def specChapterLine (c : MdChapter) : String :=
  let tsOut := if c.ts = "" then "00:00" else c.ts
  let titleOut := if c.title = "" then "Untitled" else c.title
  if c.desc = "" then "- " ++ tsOut ++ " " ++ titleOut
  else "- " ++ tsOut ++ " " ++ titleOut ++ " - " ++ c.desc

theorem chapterMdLine_spec (c : MdChapter) :
    chapterMdLine (mdChapterJVal c) = .ok (specChapterLine c) := by
  by_cases hts : c.ts = "" <;> by_cases hti : c.title = "" <;> by_cases hde : c.desc = "" <;>
    simp [chapterMdLine, mdChapterJVal, specChapterLine, JVal.getF, JObj.get, JVal.truthy,
      jor, jsTemplToString, Bind.bind, Except.bind, pure, Except.pure, hts, hti, hde]

theorem chapterLines_spec (cs : List MdChapter) :
    chapterLines (mdChaptersJArr cs) = .ok (cs.map specChapterLine) := by
  induction cs with
  | nil => rfl
  | cons c rest ih =>
      simp [mdChaptersJArr, chapterLines, chapterMdLine_spec c, ih, Bind.bind,
        Except.bind, pure, Except.pure]

/-- C8: the payload handed to the webhook attaches, alongside the existing
chapters data, a derived `content.chaptersMd` string with one line per
chapter of the form `- MM:SS Title - Description` (the ` - Description`
suffix omitted when the chapter has no description), lines joined by
newlines, and the empty string when the chapters list is absent or empty;
`{...contentData, chaptersMd}` leaves every other content field, in
particular `chapters`, untouched. -/
theorem enhancedPayload_chaptersMd :
    (∀ cs : List MdChapter,
        formatChaptersAsMarkdown (.arr (mdChaptersJArr cs)) =
          .ok (String.intercalate "\n" (cs.map specChapterLine))) ∧
    formatChaptersAsMarkdown .jnull = .ok "" ∧
    formatChaptersAsMarkdown .undefV = .ok "" ∧
    formatChaptersAsMarkdown (.arr .nil) = .ok "" ∧
    (∀ fs cf : JObj, ∀ md : String,
        fs.get "content" = .obj cf →
        formatChaptersAsMarkdown (jor (cf.get "chapters") (.arr .nil)) = .ok md →
        buildEnhancedPayload (.obj fs) =
          .ok (.obj (fs.set "content" (.obj (cf.set "chaptersMd" (.str md)))))) ∧
    (∀ o : JObj, ∀ key : String, ∀ v : JVal, ∀ k2 : String, k2 ≠ key →
        (o.set key v).get k2 = o.get k2) := by
  refine ⟨?_, rfl, rfl, rfl, ?_, JObj.set_get_ne⟩
  · intro cs
    cases cs with
    | nil => rfl
    | cons c rest =>
        have h := chapterLines_spec (c :: rest)
        simp only [mdChaptersJArr] at h
        simp [mdChaptersJArr, formatChaptersAsMarkdown, h, JVal.truthy,
          Bind.bind, Except.bind, pure, Except.pure, List.map]
  · intro fs cf md hc hmd
    unfold buildEnhancedPayload
    simp only [optChain, hc, JVal.getF, spreadFields, Bind.bind, Except.bind,
      pure, Except.pure, show jor (JVal.obj cf) (.obj .nil) = .obj cf from rfl]
    rw [hmd]

/-- Witness for C8 at a concrete record: a one-chapter content object gets
`chaptersMd = "- 0:10 Intro - d"` attached while `chapters` is preserved. -/
theorem enhancedPayload_chaptersMd_witness :
    ((.cons "content"
        (.obj (.cons "chapters" (.arr (mdChaptersJArr [⟨"0:10", "Intro", "d"⟩])) .nil))
        .nil : JObj).get "content" =
      .obj (.cons "chapters" (.arr (mdChaptersJArr [⟨"0:10", "Intro", "d"⟩])) .nil)) ∧
    buildEnhancedPayload (.obj (.cons "content"
        (.obj (.cons "chapters" (.arr (mdChaptersJArr [⟨"0:10", "Intro", "d"⟩])) .nil))
        .nil)) =
      .ok (.obj ((.cons "content"
        (.obj (.cons "chapters" (.arr (mdChaptersJArr [⟨"0:10", "Intro", "d"⟩])) .nil))
        .nil : JObj).set "content"
          (.obj ((.cons "chapters" (.arr (mdChaptersJArr [⟨"0:10", "Intro", "d"⟩]))
            .nil : JObj).set "chaptersMd" (.str "- 0:10 Intro - d"))))) ∧
    ((.cons "chapters" (.arr (mdChaptersJArr [⟨"0:10", "Intro", "d"⟩]))
        .nil : JObj).set "chaptersMd" (.str "- 0:10 Intro - d")).get "chapters" =
      (.cons "chapters" (.arr (mdChaptersJArr [⟨"0:10", "Intro", "d"⟩]))
        .nil : JObj).get "chapters" :=
  ⟨by decide,
    enhancedPayload_chaptersMd.2.2.2.2.1 _ _ "- 0:10 Intro - d" (by decide) (by decide),
    enhancedPayload_chaptersMd.2.2.2.2.2 _ "chaptersMd" (.str "- 0:10 Intro - d")
      "chapters" (by decide)⟩

/-! ### C9 -/

/-- C9: a timestamp of 125 seconds formats to `"2:05"` (no leading zero on
the minutes) via the preview formatter `formatTimestamp`, and to `"02:05"`
via `formatTimestampWithLeadingZeros`. -/
theorem formatTimestamp_125 :
    formatTimestamp (.num 125) = "2:05" ∧
    formatTimestampWithLeadingZeros (.num 125) = "02:05" := by
  refine ⟨by decide, by decide⟩

end Tella
